import Mathlib

/-!
Verification development for the pool-stats scoreboard application
(`src/main.py`, class `PoolStatsApp`).

The Tk GUI layer (widgets, fonts, message boxes, button enable/disable,
voice output, clipboard, Google-Sheets upload, logging sinks) is pure
presentation and is not modelled.  Everything that reads or writes the
match state of `PoolStatsApp` is embedded:

* the per-team counter dictionaries (`team_stats` with keys `team1`,
  `team2`, `total`),
* the turn fields `active_team`, `standby_team`, `break_team`,
  `shots_left`, `shots_taken_current_visit`,
* the five parallel undo stacks (`stats_history`, `action_log_history`,
  `active_team_history`, `shots_left_history`,
  `shots_taken_current_visit_history`) with their capacity
  `undo_snapshot_size`,
* the action-log text (modelled as a list of lines, newest first; an
  "append" insertion at Tk index `1.end` extends the newest line),
* `start_time` / `end_time` (the wall clock is passed in as an explicit
  `Nat` parameter wherever `datetime.now()` is read),
* the operations `set_active_team`, `store_snapshots`, `undo`, `reset`
  (its confirmed branch), `record_action`, and the derived-statistics
  arithmetic of `generate_stats_text` / `calculate_percentage`
  (Python floats are modelled as exact rationals).

Python lists used as stacks (`append` at the end, `pop()` from the end,
`pop(0)` to evict the oldest) are modelled newest-first: push is `cons`,
the popped element is the head, the evicted oldest element is the last.

Python exceptions raised by `record_action` (`WrongTeamShotError`,
`IncorrectVisitsError`, the `KeyError` from indexing `team_stats` with
`None`) propagate out of the Tk callback and are swallowed by the event
loop, so the application continues with whatever mutations had already
been applied; `record_action` therefore returns the (possibly partially
mutated) state together with an optional error.  The duplicate-break
branch shows a message box and returns without mutating; it is reported
as `duplicateBreak` so that "accepted" can be stated as `= none`.
-/

/-- The two sides, the keys `"team1"` / `"team2"` of the stats dict. -/
inductive Team where
  | team1
  | team2
  deriving DecidableEq

/-- `other_team: "team1" if team == "team2" else "team2"` (main.py:411). -/
def Team.other : Team → Team
  | .team1 => .team2
  | .team2 => .team1

/-- The twelve counters of `get_starting_team_stats` (main.py:100-114),
in the dict's insertion order. -/
structure TeamStats where
  visits : Nat
  easy_shots : Nat
  easy_potted : Nat
  difficult_shots : Nat
  difficult_potted : Nat
  safety_shots : Nat
  safety_potted : Nat
  break_shots : Nat
  break_potted : Nat
  additional_potted : Nat
  fouls : Nat
  foul_only_shots : Nat
  deriving DecidableEq

/-- `get_starting_team_stats()`: every counter zero. -/
def startingTeamStats : TeamStats :=
  { visits := 0, easy_shots := 0, easy_potted := 0, difficult_shots := 0
    difficult_potted := 0, safety_shots := 0, safety_potted := 0
    break_shots := 0, break_potted := 0, additional_potted := 0
    fouls := 0, foul_only_shots := 0 }

/-- Field-wise sum, the loop in `update_stats_display` (main.py:533-534)
that recomputes `team_stats['total']`. -/
def addStats (a b : TeamStats) : TeamStats :=
  { visits := a.visits + b.visits
    easy_shots := a.easy_shots + b.easy_shots
    easy_potted := a.easy_potted + b.easy_potted
    difficult_shots := a.difficult_shots + b.difficult_shots
    difficult_potted := a.difficult_potted + b.difficult_potted
    safety_shots := a.safety_shots + b.safety_shots
    safety_potted := a.safety_potted + b.safety_potted
    break_shots := a.break_shots + b.break_shots
    break_potted := a.break_potted + b.break_potted
    additional_potted := a.additional_potted + b.additional_potted
    fouls := a.fouls + b.fouls
    foul_only_shots := a.foul_only_shots + b.foul_only_shots }

/-- The `OverallStats` TypedDict (main.py:82-85). -/
structure OverallStats where
  team1 : TeamStats
  team2 : TeamStats
  total : TeamStats
  deriving DecidableEq

/-- `self.team_stats[team]` for a side key. -/
def OverallStats.get (os : OverallStats) : Team → TeamStats
  | .team1 => os.team1
  | .team2 => os.team2

/-- In-place update of one side's counters (`self.team_stats[team][...] += 1`). -/
def OverallStats.modify (os : OverallStats) (t : Team) (f : TeamStats → TeamStats) :
    OverallStats :=
  match t with
  | .team1 => { os with team1 := f os.team1 }
  | .team2 => { os with team2 := f os.team2 }

/-- The eleven button action strings of `buttons_config` (main.py:236-248),
exactly the keys used for `team_stats[team][action] += 1`. -/
inductive ActionKind where
  | difficult_potted
  | difficult_shots
  | easy_potted
  | easy_shots
  | safety_potted
  | safety_shots
  | foul_only_shots
  | additional_potted
  | fouls
  | break_potted
  | break_shots
  deriving DecidableEq

/-- `any(text == action for text in ("additional_potted", "fouls"))`
(main.py:404, 425, 444): the two amendment kinds. -/
def isAmendment (a : ActionKind) : Prop :=
  a = .additional_potted ∨ a = .fouls

instance (a : ActionKind) : Decidable (isAmendment a) := by
  unfold isAmendment; infer_instance

/-- `"break" in action` (main.py:407, 415): the substring test is true
exactly for the two break kinds. -/
def isBreakAction (a : ActionKind) : Prop :=
  a = .break_potted ∨ a = .break_shots

instance (a : ActionKind) : Decidable (isBreakAction a) := by
  unfold isBreakAction; infer_instance

/-- `action in ['difficult_potted', 'easy_potted', 'safety_potted',
'break_potted']` (main.py:450). -/
def isPotAction (a : ActionKind) : Prop :=
  a = .difficult_potted ∨ a = .easy_potted ∨ a = .safety_potted ∨ a = .break_potted

instance (a : ActionKind) : Decidable (isPotAction a) := by
  unfold isPotAction; infer_instance

/-- `"foul" in action` (main.py:463): true exactly for `fouls` and
`foul_only_shots`. -/
def isFoulAction (a : ActionKind) : Prop :=
  a = .fouls ∨ a = .foul_only_shots

instance (a : ActionKind) : Decidable (isFoulAction a) := by
  unfold isFoulAction; infer_instance

/-- `team.replace("team", "Team ")` (main.py:394). -/
def teamName : Team → String
  | .team1 => "Team 1"
  | .team2 => "Team 2"

/-- The display name computed by the replace chain of main.py:395-399,
evaluated for each of the eleven action strings. -/
def actionDisplayName : ActionKind → String
  | .difficult_potted => "Difficult ball potted"
  | .difficult_shots => "Difficult shot missed"
  | .easy_potted => "Easy ball potted"
  | .easy_shots => "Easy shot missed"
  | .safety_potted => "Safety ball potted"
  | .safety_shots => "Safety shot missed"
  | .foul_only_shots => "Foul"
  | .additional_potted => "Additional ball potted"
  | .fouls => "Foul"
  | .break_potted => "Break ball potted"
  | .break_shots => "Break shot missed"

/-- `self.team_stats[team][f"{shot_type}_shots"] += 1` for a pot action
(main.py:451-452); identity on the non-pot kinds, on which it is never
invoked. -/
def incShotsFamily (a : ActionKind) (ts : TeamStats) : TeamStats :=
  match a with
  | .difficult_potted => { ts with difficult_shots := ts.difficult_shots + 1 }
  | .easy_potted => { ts with easy_shots := ts.easy_shots + 1 }
  | .safety_potted => { ts with safety_shots := ts.safety_shots + 1 }
  | .break_potted => { ts with break_shots := ts.break_shots + 1 }
  | _ => ts

/-- `self.team_stats[team][action] += 1` (main.py:473). -/
def incByKind (a : ActionKind) (ts : TeamStats) : TeamStats :=
  match a with
  | .difficult_potted => { ts with difficult_potted := ts.difficult_potted + 1 }
  | .difficult_shots => { ts with difficult_shots := ts.difficult_shots + 1 }
  | .easy_potted => { ts with easy_potted := ts.easy_potted + 1 }
  | .easy_shots => { ts with easy_shots := ts.easy_shots + 1 }
  | .safety_potted => { ts with safety_potted := ts.safety_potted + 1 }
  | .safety_shots => { ts with safety_shots := ts.safety_shots + 1 }
  | .foul_only_shots => { ts with foul_only_shots := ts.foul_only_shots + 1 }
  | .additional_potted => { ts with additional_potted := ts.additional_potted + 1 }
  | .fouls => { ts with fouls := ts.fouls + 1 }
  | .break_potted => { ts with break_potted := ts.break_potted + 1 }
  | .break_shots => { ts with break_shots := ts.break_shots + 1 }

/-- The match state of `PoolStatsApp` (attributes set in `__init__`,
main.py:136-166), GUI-only attributes omitted. -/
structure AppState where
  team_stats : OverallStats
  active_team : Option Team
  active_team_history : List (Option Team)
  standby_team : Option Team
  shots_left : Int
  shots_left_history : List Int
  shots_taken_current_visit : Nat
  shots_taken_current_visit_history : List Nat
  stats_history : List OverallStats
  action_log_history : List (List String)
  action_log : List String
  start_time : Option Nat
  end_time : Option Nat
  break_team : Option Team
  undo_snapshot_size : Nat
  deriving DecidableEq

/-- State at the end of `__init__` (all counters zero, no active or break
team, `shots_left = 1`, empty histories and log, no times). -/
def initState (n : Nat) : AppState :=
  { team_stats :=
      { team1 := startingTeamStats, team2 := startingTeamStats
        total := startingTeamStats }
    active_team := none
    active_team_history := []
    standby_team := none
    shots_left := 1
    shots_left_history := []
    shots_taken_current_visit := 0
    shots_taken_current_visit_history := []
    stats_history := []
    action_log_history := []
    action_log := []
    start_time := none
    end_time := none
    break_team := none
    undo_snapshot_size := n }

/-- One stack update of `store_snapshots` (main.py:175-183): if the stack
is at capacity, evict the oldest element (`pop(0)`, here the last element
since stacks are newest-first), then append the new snapshot. -/
def pushCapped (n : Nat) (x : α) (l : List α) : List α :=
  x :: (if n ≤ l.length then l.dropLast else l)

/-- `set_active_team` (main.py:284-289); the label-font and
button-enablement updates are GUI only. -/
def setActiveTeam (s : AppState) (t : Option Team) : AppState :=
  { s with
    active_team := t
    standby_team := t.map Team.other
    shots_left := 1
    shots_taken_current_visit := 0 }

/-- `store_snapshots` (main.py:169-184): push the deep-copied stats, the
log text, the active team, `shots_left` and `shots_taken_current_visit`
onto the five parallel stacks, each individually evicting its oldest
element when at capacity. -/
def storeSnapshots (s : AppState) : AppState :=
  let n := s.undo_snapshot_size
  { s with
    stats_history := pushCapped n s.team_stats s.stats_history
    action_log_history := pushCapped n s.action_log s.action_log_history
    active_team_history := pushCapped n s.active_team s.active_team_history
    shots_left_history := pushCapped n s.shots_left s.shots_left_history
    shots_taken_current_visit_history :=
      pushCapped n s.shots_taken_current_visit s.shots_taken_current_visit_history }

/-- The text edit of `add_action` (main.py:275-282): an append goes onto
the end of the first (newest) line, otherwise a new timestamped line is
prepended. -/
def addLog (log : List String) (text : String) (append : Bool) (now : Nat) :
    List String :=
  if append then
    match log with
    | [] => [", " ++ text]
    | h :: t => (h ++ ", " ++ text) :: t
  else
    (toString now ++ ": " ++ text) :: log

/-- `add_action` (main.py:275-282), acting on the state. -/
def addAction (s : AppState) (text : String) (append : Bool) (now : Nat) : AppState :=
  { s with action_log := addLog s.action_log text append now }

/-- The total-recomputation loop of `update_stats_display`
(main.py:532-534): `total[k] = team1[k] + team2[k]`.  The rest of that
method only redraws text widgets and emits log lines. -/
def updateTotal (s : AppState) : AppState :=
  { s with
    team_stats :=
      { s.team_stats with total := addStats s.team_stats.team1 s.team_stats.team2 } }

/-- `undo` (main.py:190-211): guarded on a non-empty stats history; each
of the other four stacks is popped if itself non-empty.  Helper for the
log pop (main.py:199-202). -/
def popLogEntry (s : AppState) : AppState :=
  match s.action_log_history with
  | [] => s
  | l :: r => { s with action_log := l, action_log_history := r }

/-- Pop of `active_team_history` (main.py:203-204); the restored value is
applied through `set_active_team`. -/
def popActiveTeam (s : AppState) : AppState :=
  match s.active_team_history with
  | [] => s
  | a :: r => setActiveTeam { s with active_team_history := r } a

/-- Pop of `shots_left_history` (main.py:205-206). -/
def popShotsLeft (s : AppState) : AppState :=
  match s.shots_left_history with
  | [] => s
  | x :: r => { s with shots_left := x, shots_left_history := r }

/-- Pop of `shots_taken_current_visit_history` (main.py:207-208). -/
def popShotsTaken (s : AppState) : AppState :=
  match s.shots_taken_current_visit_history with
  | [] => s
  | x :: r => { s with shots_taken_current_visit := x, shots_taken_current_visit_history := r }

/-- `undo` (main.py:190-211).  With an empty stats history it is the
no-op "Cannot undo anymore!" warning.  Restoring the stats is followed by
`update_stats_display`, which recomputes the `total` entry. -/
def undo (s : AppState) : AppState :=
  match s.stats_history with
  | [] => s
  | stats :: rest =>
    popShotsTaken (popShotsLeft (popActiveTeam (popLogEntry
      (updateTotal { s with team_stats := stats, stats_history := rest }))))

/-- The confirmed branch of `reset` (main.py:218-230): snapshot, zero both
sides' counters (`reset_team_stats` touches only `team1` and `team2`),
clear the times, recompute totals, clear the log, and drop the active
team.  `break_team` is not written. -/
def reset (s : AppState) : AppState :=
  let s := storeSnapshots s
  let s := { s with team_stats :=
    { s.team_stats with team1 := startingTeamStats, team2 := startingTeamStats } }
  let s := { s with start_time := none, end_time := none }
  let s := updateTotal s
  let s := { s with action_log := [] }
  setActiveTeam s none

/-- The error outcomes of `record_action`: the two raised exception
classes (main.py:59-64), the silent duplicate-break message box
(main.py:407-409), and the `KeyError` raised by
`self.team_stats[self.break_team]` when `break_team` is `None`
(main.py:429). -/
inductive RecError where
  | wrongTeamShot
  | duplicateBreak
  | incorrectVisits
  | keyErrorBreakTeamNone
  deriving DecidableEq

/-- The effects of `record_action` once validation has passed
(main.py:434-477): snapshot, optional visit credit, log line, counter
and turn-state updates, final per-action counter bump and total
recomputation. -/
def applyEffects (s : AppState) (team : Team) (action : ActionKind) (now : Nat)
    (message action_name : String) (increment_visits : Bool) : AppState :=
  let s := storeSnapshots s
  let s := if increment_visits then
      { s with team_stats :=
          s.team_stats.modify team (fun ts => { ts with visits := ts.visits + 1 }) }
    else s
  let s := if isAmendment action then addAction s action_name true now
    else addAction s message false now
  let s := if isPotAction action then
      { s with team_stats := s.team_stats.modify team (incShotsFamily action) }
    else if action = .additional_potted then s
    else { s with shots_left := s.shots_left - 1 }
  let s := if action = .foul_only_shots then
      { s with team_stats :=
          s.team_stats.modify team (fun ts => { ts with fouls := ts.fouls + 1 }) }
    else s
  let s := if isFoulAction action then
      let s := setActiveTeam s (some team.other)
      { s with shots_left := s.shots_left + 1 }
    else if s.shots_left = 0 then setActiveTeam s (some team.other)
    else if action ≠ .additional_potted then
      { s with shots_taken_current_visit := s.shots_taken_current_visit + 1 }
    else s
  let s := { s with team_stats := s.team_stats.modify team (incByKind action) }
  updateTotal s

/-- The first-break block of `record_action` (main.py:414-421): on a
break action with no start time yet, record the start time and the break
team and make the breaking side (successful break) or its opponent
(missed break) active.  It runs after the wrong-side and duplicate-break
validations but before the visit-balance validation and before
`store_snapshots`. -/
def breakBlock (s : AppState) (team : Team) (action : ActionKind) (now : Nat) :
    AppState :=
  if isBreakAction action ∧ s.start_time = none then
    setActiveTeam { s with start_time := some now, break_team := some team }
      (some (if action = .break_potted then team else team.other))
  else s

/-- `record_action` (main.py:391-477).  Returns the state after the call
together with the error, when one is raised (or the duplicate-break
message box is shown).  Exceptions raised after the break-assignment
block leave that block's mutations in place, exactly as in the running
application, where the Tk event loop swallows the exception. -/
def recordAction (s : AppState) (team : Team) (action : ActionKind) (now : Nat) :
    AppState × Option RecError :=
  let message := teamName team ++ " " ++ actionDisplayName action
  let action_name := actionDisplayName action
  if s.active_team.isSome ∧ ¬ isAmendment action ∧ s.active_team ≠ some team then
    (s, some .wrongTeamShot)
  else if isBreakAction action ∧ (s.team_stats.get team).break_shots > 0 then
    (s, some .duplicateBreak)
  else
    let other := team.other
    let s := breakBlock s team action now
    if s.shots_taken_current_visit = 0 ∧ ¬ isAmendment action then
      if (s.team_stats.get team).visits - (s.team_stats.get other).visits > 0 then
        (s, some .incorrectVisits)
      else if some team ≠ s.break_team then
        match s.break_team with
        | none => (s, some .keyErrorBreakTeamNone)
        | some bt =>
          if (s.team_stats.get bt).visits < (s.team_stats.get team).visits then
            (s, some .incorrectVisits)
          else (applyEffects s team action now message action_name true, none)
      else (applyEffects s team action now message action_name true, none)
    else (applyEffects s team action now message action_name false, none)

/-- One user-level operation on the core state: a button action, an undo,
or a confirmed reset.  `complete_game` and `export_stats` only write
`end_time` and the log and are irrelevant to every claim. -/
inductive Step : AppState → AppState → Prop where
  | record : ∀ (s : AppState) (t : Team) (a : ActionKind) (now : Nat),
      Step s (recordAction s t a now).1
  | undoStep : ∀ s : AppState, Step s (undo s)
  | resetStep : ∀ s : AppState, Step s (reset s)

/-- States reachable from a fresh application with undo capacity `n`. -/
inductive Reachable (n : Nat) : AppState → Prop where
  | init : Reachable n (initState n)
  | step : ∀ {s s' : AppState}, Reachable n s → Step s s' → Reachable n s'

/-! ### Projection lemmas

These let `simp` push field projections through `ite` and through each
state transformer, so that theorems about one field never have to unfold
the branches that leave it alone. -/

section ProjectionLemmas

variable {c : Prop} [Decidable c] {s s₁ s₂ : AppState} {t : Option Team}

theorem ite_team_stats : (ite c s₁ s₂).team_stats = ite c s₁.team_stats s₂.team_stats :=
  apply_ite _ c s₁ s₂

theorem ite_active_team : (ite c s₁ s₂).active_team = ite c s₁.active_team s₂.active_team :=
  apply_ite _ c s₁ s₂

theorem ite_standby_team : (ite c s₁ s₂).standby_team = ite c s₁.standby_team s₂.standby_team :=
  apply_ite _ c s₁ s₂

theorem ite_shots_left : (ite c s₁ s₂).shots_left = ite c s₁.shots_left s₂.shots_left :=
  apply_ite _ c s₁ s₂

theorem ite_shots_taken :
    (ite c s₁ s₂).shots_taken_current_visit =
      ite c s₁.shots_taken_current_visit s₂.shots_taken_current_visit :=
  apply_ite _ c s₁ s₂

theorem ite_stats_history :
    (ite c s₁ s₂).stats_history = ite c s₁.stats_history s₂.stats_history :=
  apply_ite _ c s₁ s₂

theorem ite_action_log_history :
    (ite c s₁ s₂).action_log_history = ite c s₁.action_log_history s₂.action_log_history :=
  apply_ite _ c s₁ s₂

theorem ite_active_team_history :
    (ite c s₁ s₂).active_team_history = ite c s₁.active_team_history s₂.active_team_history :=
  apply_ite _ c s₁ s₂

theorem ite_shots_left_history :
    (ite c s₁ s₂).shots_left_history = ite c s₁.shots_left_history s₂.shots_left_history :=
  apply_ite _ c s₁ s₂

theorem ite_shots_taken_history :
    (ite c s₁ s₂).shots_taken_current_visit_history =
      ite c s₁.shots_taken_current_visit_history s₂.shots_taken_current_visit_history :=
  apply_ite _ c s₁ s₂

theorem ite_start_time : (ite c s₁ s₂).start_time = ite c s₁.start_time s₂.start_time :=
  apply_ite _ c s₁ s₂

theorem ite_end_time : (ite c s₁ s₂).end_time = ite c s₁.end_time s₂.end_time :=
  apply_ite _ c s₁ s₂

theorem ite_break_team : (ite c s₁ s₂).break_team = ite c s₁.break_team s₂.break_team :=
  apply_ite _ c s₁ s₂

theorem ite_snapshot_size :
    (ite c s₁ s₂).undo_snapshot_size = ite c s₁.undo_snapshot_size s₂.undo_snapshot_size :=
  apply_ite _ c s₁ s₂

end ProjectionLemmas


section OverallIte

variable {c : Prop} [Decidable c] {o₁ o₂ : OverallStats}

theorem ite_os_team1 : (ite c o₁ o₂).team1 = ite c o₁.team1 o₂.team1 :=
  apply_ite _ c o₁ o₂

theorem ite_os_team2 : (ite c o₁ o₂).team2 = ite c o₁.team2 o₂.team2 :=
  apply_ite _ c o₁ o₂

end OverallIte

/-- The net change `record_action` makes to the two sides' counters once
validation has passed: the optional visit credit (main.py:437-438), the
attempted-shots bump for a pot (main.py:450-452), the foul counter for a
`foul_only_shots` action (main.py:460-461), and the per-action counter
(main.py:473). -/
def effectStats (os : OverallStats) (t : Team) (a : ActionKind) (inc : Bool) :
    OverallStats :=
  let os := if inc then os.modify t (fun ts => { ts with visits := ts.visits + 1 }) else os
  let os := if isPotAction a then os.modify t (incShotsFamily a) else os
  let os := if a = .foul_only_shots then
      os.modify t (fun ts => { ts with fouls := ts.fouls + 1 })
    else os
  os.modify t (incByKind a)

theorem applyEffects_stats_history (s : AppState) (t : Team) (a : ActionKind)
    (now : Nat) (m an : String) (inc : Bool) :
    (applyEffects s t a now m an inc).stats_history =
      pushCapped s.undo_snapshot_size s.team_stats s.stats_history := by
  simp [applyEffects, storeSnapshots, setActiveTeam, addAction, updateTotal,
    ite_stats_history]

theorem applyEffects_log_history (s : AppState) (t : Team) (a : ActionKind)
    (now : Nat) (m an : String) (inc : Bool) :
    (applyEffects s t a now m an inc).action_log_history =
      pushCapped s.undo_snapshot_size s.action_log s.action_log_history := by
  simp [applyEffects, storeSnapshots, setActiveTeam, addAction, updateTotal,
    ite_action_log_history]

theorem applyEffects_active_history (s : AppState) (t : Team) (a : ActionKind)
    (now : Nat) (m an : String) (inc : Bool) :
    (applyEffects s t a now m an inc).active_team_history =
      pushCapped s.undo_snapshot_size s.active_team s.active_team_history := by
  simp [applyEffects, storeSnapshots, setActiveTeam, addAction, updateTotal,
    ite_active_team_history]

theorem applyEffects_shots_left_history (s : AppState) (t : Team) (a : ActionKind)
    (now : Nat) (m an : String) (inc : Bool) :
    (applyEffects s t a now m an inc).shots_left_history =
      pushCapped s.undo_snapshot_size s.shots_left s.shots_left_history := by
  simp [applyEffects, storeSnapshots, setActiveTeam, addAction, updateTotal,
    ite_shots_left_history]

theorem applyEffects_shots_taken_history (s : AppState) (t : Team) (a : ActionKind)
    (now : Nat) (m an : String) (inc : Bool) :
    (applyEffects s t a now m an inc).shots_taken_current_visit_history =
      pushCapped s.undo_snapshot_size s.shots_taken_current_visit
        s.shots_taken_current_visit_history := by
  simp [applyEffects, storeSnapshots, setActiveTeam, addAction, updateTotal,
    ite_shots_taken_history]

theorem applyEffects_snapshot_size (s : AppState) (t : Team) (a : ActionKind)
    (now : Nat) (m an : String) (inc : Bool) :
    (applyEffects s t a now m an inc).undo_snapshot_size = s.undo_snapshot_size := by
  simp [applyEffects, storeSnapshots, setActiveTeam, addAction, updateTotal,
    ite_snapshot_size]

theorem applyEffects_start_time (s : AppState) (t : Team) (a : ActionKind)
    (now : Nat) (m an : String) (inc : Bool) :
    (applyEffects s t a now m an inc).start_time = s.start_time := by
  simp [applyEffects, storeSnapshots, setActiveTeam, addAction, updateTotal,
    ite_start_time]

theorem applyEffects_end_time (s : AppState) (t : Team) (a : ActionKind)
    (now : Nat) (m an : String) (inc : Bool) :
    (applyEffects s t a now m an inc).end_time = s.end_time := by
  simp [applyEffects, storeSnapshots, setActiveTeam, addAction, updateTotal,
    ite_end_time]

theorem applyEffects_break_team (s : AppState) (t : Team) (a : ActionKind)
    (now : Nat) (m an : String) (inc : Bool) :
    (applyEffects s t a now m an inc).break_team = s.break_team := by
  simp [applyEffects, storeSnapshots, setActiveTeam, addAction, updateTotal,
    ite_break_team]

theorem applyEffects_team1 (s : AppState) (t : Team) (a : ActionKind)
    (now : Nat) (m an : String) (inc : Bool) :
    (applyEffects s t a now m an inc).team_stats.team1 =
      (effectStats s.team_stats t a inc).team1 := by
  simp [applyEffects, effectStats, storeSnapshots, setActiveTeam, addAction,
    updateTotal, ite_team_stats, ite_os_team1]

theorem applyEffects_team2 (s : AppState) (t : Team) (a : ActionKind)
    (now : Nat) (m an : String) (inc : Bool) :
    (applyEffects s t a now m an inc).team_stats.team2 =
      (effectStats s.team_stats t a inc).team2 := by
  simp [applyEffects, effectStats, storeSnapshots, setActiveTeam, addAction,
    updateTotal, ite_team_stats, ite_os_team2]

theorem breakBlock_team_stats (s : AppState) (t : Team) (a : ActionKind) (now : Nat) :
    (breakBlock s t a now).team_stats = s.team_stats := by
  simp [breakBlock, setActiveTeam, ite_team_stats]

theorem breakBlock_stats_history (s : AppState) (t : Team) (a : ActionKind) (now : Nat) :
    (breakBlock s t a now).stats_history = s.stats_history := by
  simp [breakBlock, setActiveTeam, ite_stats_history]

theorem breakBlock_log_history (s : AppState) (t : Team) (a : ActionKind) (now : Nat) :
    (breakBlock s t a now).action_log_history = s.action_log_history := by
  simp [breakBlock, setActiveTeam, ite_action_log_history]

theorem breakBlock_active_history (s : AppState) (t : Team) (a : ActionKind) (now : Nat) :
    (breakBlock s t a now).active_team_history = s.active_team_history := by
  simp [breakBlock, setActiveTeam, ite_active_team_history]

theorem breakBlock_shots_left_history (s : AppState) (t : Team) (a : ActionKind) (now : Nat) :
    (breakBlock s t a now).shots_left_history = s.shots_left_history := by
  simp [breakBlock, setActiveTeam, ite_shots_left_history]

theorem breakBlock_shots_taken_history (s : AppState) (t : Team) (a : ActionKind) (now : Nat) :
    (breakBlock s t a now).shots_taken_current_visit_history =
      s.shots_taken_current_visit_history := by
  simp [breakBlock, setActiveTeam, ite_shots_taken_history]

theorem breakBlock_snapshot_size (s : AppState) (t : Team) (a : ActionKind) (now : Nat) :
    (breakBlock s t a now).undo_snapshot_size = s.undo_snapshot_size := by
  simp [breakBlock, setActiveTeam, ite_snapshot_size]

theorem breakBlock_end_time (s : AppState) (t : Team) (a : ActionKind) (now : Nat) :
    (breakBlock s t a now).end_time = s.end_time := by
  simp [breakBlock, setActiveTeam, ite_end_time]

/-- When the action is not a first break (not a break action, or the
start time is already set), the break block is the identity
(main.py:415 guard). -/
theorem breakBlock_eq_self (s : AppState) (t : Team) (a : ActionKind) (now : Nat)
    (h : ¬ (isBreakAction a ∧ s.start_time = none)) :
    breakBlock s t a now = s :=
  if_neg h

/-- Every `record_action` call lands in one of three shapes: rejected
before the break block (state unchanged), rejected after the break block
(only the break block's mutations applied), or accepted (the effects run
on the post-break-block state).  In the accepted case with a visit
credit, the first visit-balance check (main.py:426-428) guarantees the
acting side's visits do not exceed the other side's. -/
theorem recordAction_shape (s : AppState) (t : Team) (a : ActionKind) (now : Nat) :
    (∃ e, recordAction s t a now = (s, some e) ∧
      (e = .wrongTeamShot ∨ e = .duplicateBreak)) ∨
    (∃ e, recordAction s t a now = (breakBlock s t a now, some e) ∧
      (e = .incorrectVisits ∨ e = .keyErrorBreakTeamNone)) ∨
    ∃ inc : Bool,
      recordAction s t a now =
        (applyEffects (breakBlock s t a now) t a now
          (teamName t ++ " " ++ actionDisplayName a) (actionDisplayName a) inc, none) ∧
      (inc = true →
        ((breakBlock s t a now).team_stats.get t).visits ≤
          ((breakBlock s t a now).team_stats.get t.other).visits) := by
  unfold recordAction
  dsimp only
  split_ifs with hws hdup htk hc1 hnbt
  · exact Or.inl ⟨.wrongTeamShot, rfl, Or.inl rfl⟩
  · exact Or.inl ⟨.duplicateBreak, rfl, Or.inr rfl⟩
  · exact Or.inr (Or.inl ⟨.incorrectVisits, rfl, Or.inl rfl⟩)
  · split
    · exact Or.inr (Or.inl ⟨.keyErrorBreakTeamNone, rfl, Or.inr rfl⟩)
    · rename_i bt hbt
      split_ifs with hc2
      · exact Or.inr (Or.inl ⟨.incorrectVisits, rfl, Or.inl rfl⟩)
      · refine Or.inr (Or.inr ⟨true, rfl, fun _ => ?_⟩)
        omega
  · refine Or.inr (Or.inr ⟨true, rfl, fun _ => ?_⟩)
    omega
  · exact Or.inr (Or.inr ⟨false, rfl, by simp⟩)

theorem mem_pushCapped {α : Type} {y x : α} {n : Nat} {l : List α}
    (h : y ∈ pushCapped n x l) : y = x ∨ y ∈ l := by
  unfold pushCapped at h
  rcases List.mem_cons.mp h with h | h
  · exact Or.inl h
  · right
    split at h
    · exact (List.dropLast_sublist l).subset h
    · exact h

/-- Per-family bound: each potted counter is at most its attempted
counter. -/
def PotLe (ts : TeamStats) : Prop :=
  ts.easy_potted ≤ ts.easy_shots ∧ ts.difficult_potted ≤ ts.difficult_shots ∧
  ts.safety_potted ≤ ts.safety_shots ∧ ts.break_potted ≤ ts.break_shots

/-- The stats part of the reachability invariant: the two sides' visit
counts differ by at most one, and potted counters are bounded by
attempted counters. -/
def GoodStats (os : OverallStats) : Prop :=
  os.team1.visits ≤ os.team2.visits + 1 ∧ os.team2.visits ≤ os.team1.visits + 1 ∧
  PotLe os.team1 ∧ PotLe os.team2

/-- The invariant holds for the live stats and for every snapshot on the
undo stack. -/
def GoodS (s : AppState) : Prop :=
  GoodStats s.team_stats ∧ ∀ os ∈ s.stats_history, GoodStats os

theorem goodStats_effect (os : OverallStats) (t : Team) (a : ActionKind) (inc : Bool)
    (h : GoodStats os)
    (hv : inc = true → (os.get t).visits ≤ (os.get t.other).visits) :
    GoodStats (effectStats os t a inc) := by
  rcases os with ⟨t1, t2, tot⟩
  cases t <;> cases inc <;> cases a <;>
    simp_all [effectStats, OverallStats.modify, OverallStats.get, Team.other,
      GoodStats, PotLe, isPotAction, incShotsFamily, incByKind] <;>
    omega

theorem goodS_applyEffects (s : AppState) (t : Team) (a : ActionKind) (now : Nat)
    (m an : String) (inc : Bool) (h : GoodS s)
    (hv : inc = true → (s.team_stats.get t).visits ≤ (s.team_stats.get t.other).visits) :
    GoodS (applyEffects s t a now m an inc) := by
  constructor
  · have h1 := applyEffects_team1 s t a now m an inc
    have h2 := applyEffects_team2 s t a now m an inc
    have he := goodStats_effect s.team_stats t a inc h.1 hv
    unfold GoodStats at he ⊢
    rw [h1, h2]
    exact he
  · intro os hos
    rw [applyEffects_stats_history] at hos
    rcases mem_pushCapped hos with rfl | hos
    · exact h.1
    · exact h.2 os hos

theorem goodS_breakBlock (s : AppState) (t : Team) (a : ActionKind) (now : Nat)
    (h : GoodS s) : GoodS (breakBlock s t a now) := by
  unfold GoodS
  rw [breakBlock_team_stats, breakBlock_stats_history]
  exact h

theorem goodS_recordAction (s : AppState) (t : Team) (a : ActionKind) (now : Nat)
    (h : GoodS s) : GoodS (recordAction s t a now).1 := by
  rcases recordAction_shape s t a now with ⟨e, hs, he⟩ | ⟨e, hs, he⟩ | ⟨inc, hs, hv⟩ <;>
    rw [hs]
  · exact h
  · exact goodS_breakBlock s t a now h
  · exact goodS_applyEffects _ t a now _ _ inc (goodS_breakBlock s t a now h) hv

theorem popLogEntry_team_stats (s : AppState) :
    (popLogEntry s).team_stats = s.team_stats := by
  unfold popLogEntry; split <;> rfl

theorem popLogEntry_stats_history (s : AppState) :
    (popLogEntry s).stats_history = s.stats_history := by
  unfold popLogEntry; split <;> rfl

theorem popActiveTeam_team_stats (s : AppState) :
    (popActiveTeam s).team_stats = s.team_stats := by
  unfold popActiveTeam; split <;> rfl

theorem popActiveTeam_stats_history (s : AppState) :
    (popActiveTeam s).stats_history = s.stats_history := by
  unfold popActiveTeam; split <;> rfl

theorem popShotsLeft_team_stats (s : AppState) :
    (popShotsLeft s).team_stats = s.team_stats := by
  unfold popShotsLeft; split <;> rfl

theorem popShotsLeft_stats_history (s : AppState) :
    (popShotsLeft s).stats_history = s.stats_history := by
  unfold popShotsLeft; split <;> rfl

theorem popShotsTaken_team_stats (s : AppState) :
    (popShotsTaken s).team_stats = s.team_stats := by
  unfold popShotsTaken; split <;> rfl

theorem popShotsTaken_stats_history (s : AppState) :
    (popShotsTaken s).stats_history = s.stats_history := by
  unfold popShotsTaken; split <;> rfl

theorem goodS_undo (s : AppState) (h : GoodS s) : GoodS (undo s) := by
  unfold undo
  split
  · exact h
  · rename_i st rest hst
    have hgst : GoodStats st := h.2 st (hst ▸ List.mem_cons_self st rest)
    have hrest : ∀ os ∈ rest, GoodStats os := by
      intro os hos
      exact h.2 os (hst ▸ List.mem_cons_of_mem st hos)
    constructor
    · rw [popShotsTaken_team_stats, popShotsLeft_team_stats, popActiveTeam_team_stats,
        popLogEntry_team_stats]
      unfold GoodStats PotLe at hgst ⊢
      exact hgst
    · intro os hos
      rw [popShotsTaken_stats_history, popShotsLeft_stats_history,
        popActiveTeam_stats_history, popLogEntry_stats_history] at hos
      exact hrest os hos

theorem goodS_reset (s : AppState) (h : GoodS s) : GoodS (reset s) := by
  unfold reset setActiveTeam updateTotal storeSnapshots
  constructor
  · unfold GoodStats PotLe
    simp [startingTeamStats]
  · intro os hos
    simp only at hos
    rcases mem_pushCapped hos with rfl | hos
    · exact h.1
    · exact h.2 os hos

theorem reachable_goodS {n : Nat} {s : AppState} (h : Reachable n s) : GoodS s := by
  induction h with
  | init =>
    constructor
    · unfold GoodStats PotLe initState startingTeamStats
      simp
    · intro os hos
      simp [initState] at hos
  | step hr hstep ih =>
    cases hstep with
    | record t a now => exact goodS_recordAction _ t a now ih
    | undoStep => exact goodS_undo _ ih
    | resetStep => exact goodS_reset _ ih

theorem length_pushCapped {α : Type} (n : Nat) (x : α) (l : List α) :
    (pushCapped n x l).length = (if n ≤ l.length then l.length - 1 else l.length) + 1 := by
  unfold pushCapped
  split <;> simp_all [List.length_dropLast]

/-- The four non-stats undo stacks have the same depth as the stats
stack. -/
def HistSync (s : AppState) : Prop :=
  s.action_log_history.length = s.stats_history.length ∧
  s.active_team_history.length = s.stats_history.length ∧
  s.shots_left_history.length = s.stats_history.length ∧
  s.shots_taken_current_visit_history.length = s.stats_history.length

/-- The history part of the reachability invariant: the capacity field is
the configured one, the five stacks are depth-synchronized and (for a
positive capacity) bounded by it. -/
def HistInv (n : Nat) (s : AppState) : Prop :=
  s.undo_snapshot_size = n ∧ HistSync s ∧ (1 ≤ n → s.stats_history.length ≤ n)

theorem histInv_storeSnapshots (n : Nat) (s : AppState) (h : HistInv n s) :
    HistInv n (storeSnapshots s) := by
  obtain ⟨hn, ⟨h1, h2, h3, h4⟩, hb⟩ := h
  refine ⟨hn, ⟨?_, ?_, ?_, ?_⟩, ?_⟩
  · simp [storeSnapshots, length_pushCapped, h1]
  · simp [storeSnapshots, length_pushCapped, h2]
  · simp [storeSnapshots, length_pushCapped, h3]
  · simp [storeSnapshots, length_pushCapped, h4]
  · intro hn1
    have := hb hn1
    simp only [storeSnapshots, length_pushCapped, hn]
    split <;> omega

theorem histInv_applyEffects (n : Nat) (s : AppState) (t : Team) (a : ActionKind)
    (now : Nat) (m an : String) (inc : Bool) (h : HistInv n s) :
    HistInv n (applyEffects s t a now m an inc) := by
  obtain ⟨hn, ⟨h1, h2, h3, h4⟩, hb⟩ := h
  refine ⟨?_, ⟨?_, ?_, ?_, ?_⟩, ?_⟩
  · rw [applyEffects_snapshot_size]; exact hn
  · rw [applyEffects_log_history, applyEffects_stats_history]
    simp [length_pushCapped, h1]
  · rw [applyEffects_active_history, applyEffects_stats_history]
    simp [length_pushCapped, h2]
  · rw [applyEffects_shots_left_history, applyEffects_stats_history]
    simp [length_pushCapped, h3]
  · rw [applyEffects_shots_taken_history, applyEffects_stats_history]
    simp [length_pushCapped, h4]
  · intro hn1
    have := hb hn1
    rw [applyEffects_stats_history]
    simp only [length_pushCapped, hn]
    split <;> omega

theorem histInv_breakBlock (n : Nat) (s : AppState) (t : Team) (a : ActionKind)
    (now : Nat) (h : HistInv n s) : HistInv n (breakBlock s t a now) := by
  obtain ⟨hn, ⟨h1, h2, h3, h4⟩, hb⟩ := h
  refine ⟨?_, ⟨?_, ?_, ?_, ?_⟩, ?_⟩ <;>
    simp only [breakBlock_snapshot_size, breakBlock_log_history,
      breakBlock_active_history, breakBlock_shots_left_history,
      breakBlock_shots_taken_history, breakBlock_stats_history] <;>
    first
      | exact hn
      | exact h1
      | exact h2
      | exact h3
      | exact h4
      | exact hb

theorem histInv_recordAction (n : Nat) (s : AppState) (t : Team) (a : ActionKind)
    (now : Nat) (h : HistInv n s) : HistInv n (recordAction s t a now).1 := by
  rcases recordAction_shape s t a now with ⟨e, hs, he⟩ | ⟨e, hs, he⟩ | ⟨inc, hs, hv⟩ <;>
    rw [hs]
  · exact h
  · exact histInv_breakBlock n s t a now h
  · exact histInv_applyEffects n _ t a now _ _ inc (histInv_breakBlock n s t a now h)

theorem histInv_undo (n : Nat) (s : AppState) (h : HistInv n s) : HistInv n (undo s) := by
  obtain ⟨ts, act, ath, stb, sl, slh, stv, stvh, sh, alh, al, stt, ent, bt, sz⟩ := s
  obtain ⟨hn, ⟨h1, h2, h3, h4⟩, hb⟩ := h
  simp only at hn h1 h2 h3 h4 hb
  rcases sh with _ | ⟨st, rest⟩
  · exact ⟨hn, ⟨h1, h2, h3, h4⟩, hb⟩
  · rcases alh with _ | ⟨l, rlog⟩
    · simp at h1
    rcases ath with _ | ⟨a0, rat⟩
    · simp at h2
    rcases slh with _ | ⟨x0, rsl⟩
    · simp at h3
    rcases stvh with _ | ⟨y0, rst⟩
    · simp at h4
    refine ⟨?_, ⟨?_, ?_, ?_, ?_⟩, ?_⟩ <;>
      (simp_all [undo, popLogEntry, popActiveTeam, popShotsLeft, popShotsTaken,
        updateTotal, setActiveTeam]
       try omega)

theorem histInv_reset (n : Nat) (s : AppState) (h : HistInv n s) : HistInv n (reset s) := by
  have h1 := histInv_storeSnapshots n s h
  unfold reset setActiveTeam updateTotal
  obtain ⟨hn, ⟨ha, hb, hc, hd⟩, he⟩ := h1
  exact ⟨hn, ⟨ha, hb, hc, hd⟩, he⟩

theorem reachable_histInv {n : Nat} {s : AppState} (h : Reachable n s) : HistInv n s := by
  induction h with
  | init => refine ⟨rfl, ⟨rfl, rfl, rfl, rfl⟩, fun _ => by simp [initState]⟩
  | step hr hstep ih =>
    cases hstep with
    | record t a now => exact histInv_recordAction n _ t a now ih
    | undoStep => exact histInv_undo n _ ih
    | resetStep => exact histInv_reset n _ ih

/-- `calculate_percentage` (main.py:55-56); Python floats are modelled as
exact rationals. -/
def calculate_percentage (numerator denominator : ℚ) : ℚ :=
  if denominator ≠ 0 then numerator / denominator * 100 else 0

/-- The derived numbers computed by `generate_stats_text`
(main.py:482-493). -/
structure DerivedMetrics where
  total_shots : Nat
  total_potted : Nat
  total_pots_with_additional : Nat
  shot_percent : ℚ
  pot_percent : ℚ
  pot_per_visit : ℚ
  easy_shot_percent : ℚ
  difficult_shot_percent : ℚ
  deriving DecidableEq

/-- The arithmetic of `generate_stats_text` (main.py:482-493); the text
rendering around it is presentation only.  `stats['visits'] or 1` is the
truthiness idiom for "1 when visits is 0". -/
def deriveMetrics (stats : TeamStats) : DerivedMetrics :=
  let total_pot_attempts := stats.easy_shots + stats.difficult_shots
  let total_shots := stats.easy_shots + stats.difficult_shots + stats.safety_shots +
    stats.break_shots + stats.foul_only_shots
  let total_potted := stats.easy_potted + stats.difficult_potted
  let total_potted_with_break := total_potted + stats.break_potted
  let total_pots_with_additional := total_potted_with_break + stats.safety_potted +
    stats.additional_potted
  { total_shots := total_shots
    total_potted := total_potted
    total_pots_with_additional := total_pots_with_additional
    shot_percent := calculate_percentage total_pots_with_additional total_shots
    pot_percent := calculate_percentage total_potted total_pot_attempts
    pot_per_visit := (total_pots_with_additional : ℚ) /
      ((if stats.visits = 0 then 1 else stats.visits : Nat) : ℚ)
    easy_shot_percent := calculate_percentage stats.easy_potted stats.easy_shots
    difficult_shot_percent :=
      calculate_percentage stats.difficult_potted stats.difficult_shots }

/-- `undo` never touches the timestamps, the break team or the capacity
(main.py:190-211 reads and writes only the stats, the log, the turn
fields and the five stacks). -/
theorem undo_frame (s : AppState) :
    (undo s).start_time = s.start_time ∧ (undo s).end_time = s.end_time ∧
    (undo s).break_team = s.break_team ∧
    (undo s).undo_snapshot_size = s.undo_snapshot_size := by
  obtain ⟨ts, act, ath, stb, sl, slh, stv, stvh, sh, alh, al, stt, ent, bt, sz⟩ := s
  rcases sh with _ | ⟨st, rest⟩
  · exact ⟨rfl, rfl, rfl, rfl⟩
  · rcases alh with _ | ⟨l, rlog⟩ <;> rcases ath with _ | ⟨a0, rat⟩ <;>
      rcases slh with _ | ⟨x0, rsl⟩ <;> rcases stvh with _ | ⟨y0, rst⟩ <;>
      simp [undo, popLogEntry, popActiveTeam, popShotsLeft, popShotsTaken,
        updateTotal, setActiveTeam]

/-- An accepted `record_action` call is exactly an `applyEffects` run on
the post-break-block state. -/
theorem recordAction_of_accepted (s : AppState) (t : Team) (a : ActionKind) (now : Nat)
    (hacc : (recordAction s t a now).2 = none) :
    ∃ inc : Bool,
      (recordAction s t a now).1 =
        applyEffects (breakBlock s t a now) t a now
          (teamName t ++ " " ++ actionDisplayName a) (actionDisplayName a) inc := by
  rcases recordAction_shape s t a now with ⟨e, hs, he⟩ | ⟨e, hs, he⟩ | ⟨inc, hs, hv⟩
  · rw [hs] at hacc; simp at hacc
  · rw [hs] at hacc; simp at hacc
  · exact ⟨inc, by rw [hs]⟩

/-- Unfolding of `undo` when the stats history is non-empty. -/
theorem undo_eq_of_cons (s : AppState) {st : OverallStats} {rest : List OverallStats}
    (h : s.stats_history = st :: rest) :
    undo s = popShotsTaken (popShotsLeft (popActiveTeam (popLogEntry
      (updateTotal { s with team_stats := st, stats_history := rest })))) := by
  unfold undo
  rw [h]

/-- Full characterization of `undo` when all five stacks are non-empty
(the lock-step case). -/
theorem undo_fields (s : AppState) {st : OverallStats} {rest : List OverallStats}
    {l : List String} {rlog : List (List String)} {a0 : Option Team}
    {rat : List (Option Team)} {x0 : Int} {rsl : List Int} {y0 : Nat} {rst : List Nat}
    (h1 : s.stats_history = st :: rest)
    (h2 : s.action_log_history = l :: rlog)
    (h3 : s.active_team_history = a0 :: rat)
    (h4 : s.shots_left_history = x0 :: rsl)
    (h5 : s.shots_taken_current_visit_history = y0 :: rst) :
    (undo s).team_stats = { st with total := addStats st.team1 st.team2 } ∧
    (undo s).active_team = a0 ∧
    (undo s).standby_team = a0.map Team.other ∧
    (undo s).shots_left = x0 ∧
    (undo s).shots_taken_current_visit = y0 ∧
    (undo s).break_team = s.break_team ∧
    (undo s).start_time = s.start_time ∧
    (undo s).end_time = s.end_time ∧
    (undo s).action_log = l ∧
    (undo s).stats_history = rest := by
  obtain ⟨ts, act, ath, stb, sl, slh, stv, stvh, sh, alh, al, stt, ent, bt, sz⟩ := s
  simp only at h1 h2 h3 h4 h5
  subst h1 h2 h3 h4 h5
  simp [undo, popLogEntry, popActiveTeam, popShotsLeft, popShotsTaken,
    updateTotal, setActiveTeam]

/-- Round trip through the history: the snapshot that `applyEffects`
pushes is popped back verbatim by `undo`; together with the
standby-consistency and total-consistency of the starting state this
restores stats and the four turn fields exactly, and the break team is
untouched on both legs. -/
theorem undo_applyEffects (s : AppState) (t : Team) (a : ActionKind) (now : Nat)
    (m an : String) (inc : Bool)
    (hsb : s.standby_team = s.active_team.map Team.other)
    (htot : s.team_stats.total = addStats s.team_stats.team1 s.team_stats.team2) :
    (undo (applyEffects s t a now m an inc)).team_stats = s.team_stats ∧
    (undo (applyEffects s t a now m an inc)).active_team = s.active_team ∧
    (undo (applyEffects s t a now m an inc)).standby_team = s.standby_team ∧
    (undo (applyEffects s t a now m an inc)).shots_left = s.shots_left ∧
    (undo (applyEffects s t a now m an inc)).shots_taken_current_visit =
      s.shots_taken_current_visit ∧
    (undo (applyEffects s t a now m an inc)).break_team = s.break_team ∧
    (undo (applyEffects s t a now m an inc)).action_log = s.action_log := by
  have h1 : (applyEffects s t a now m an inc).stats_history =
      s.team_stats :: (if s.undo_snapshot_size ≤ s.stats_history.length then
        s.stats_history.dropLast else s.stats_history) := by
    rw [applyEffects_stats_history]; rfl
  have h2 : (applyEffects s t a now m an inc).action_log_history =
      s.action_log :: (if s.undo_snapshot_size ≤ s.action_log_history.length then
        s.action_log_history.dropLast else s.action_log_history) := by
    rw [applyEffects_log_history]; rfl
  have h3 : (applyEffects s t a now m an inc).active_team_history =
      s.active_team :: (if s.undo_snapshot_size ≤ s.active_team_history.length then
        s.active_team_history.dropLast else s.active_team_history) := by
    rw [applyEffects_active_history]; rfl
  have h4 : (applyEffects s t a now m an inc).shots_left_history =
      s.shots_left :: (if s.undo_snapshot_size ≤ s.shots_left_history.length then
        s.shots_left_history.dropLast else s.shots_left_history) := by
    rw [applyEffects_shots_left_history]; rfl
  have h5 : (applyEffects s t a now m an inc).shots_taken_current_visit_history =
      s.shots_taken_current_visit ::
        (if s.undo_snapshot_size ≤ s.shots_taken_current_visit_history.length then
          s.shots_taken_current_visit_history.dropLast
        else s.shots_taken_current_visit_history) := by
    rw [applyEffects_shots_taken_history]; rfl
  obtain ⟨f1, f2, f3, f4, f5, f6, f7, f8, f9, f10⟩ :=
    undo_fields (applyEffects s t a now m an inc) h1 h2 h3 h4 h5
  refine ⟨?_, f2, ?_, f4, f5, ?_, f9⟩
  · rw [f1, ← htot]
  · rw [f3, ← hsb]
  · rw [f6, applyEffects_break_team]

/-! ### Concrete example run used by witnesses and counterexamples -/

/-- A fresh application with the default undo capacity 5. -/
def exInit : AppState := initState 5

/-- Team 1 pots the break. -/
def exBreak : AppState := (recordAction exInit .team1 .break_potted 1).1

/-- Team 1 then misses an easy shot (turnover to team 2). -/
def exMiss : AppState := (recordAction exBreak .team1 .easy_shots 2).1

/-- Team 2 pots an easy shot (second visit credited, visits 1-1). -/
def exVisit2 : AppState := (recordAction exMiss .team2 .easy_potted 3).1

/-- A foul is amended onto team 1's recorded shot; the foul turnover
hands the table back to team 2 with a fresh visit. -/
def exFoulAmend : AppState := (recordAction exVisit2 .team1 .fouls 4).1

/-- Team 2 starts another visit: visits are now 1-2 against the break
side. -/
def exViolate : AppState := (recordAction exFoulAmend .team2 .easy_potted 5).1

/-- A confirmed reset taken right after the break. -/
def exReset : AppState := reset exBreak

/-- After the reset, team 1 records an easy pot: accepted because the
stale break team survives the reset. -/
def exPostReset : AppState := (recordAction exReset .team1 .easy_potted 7).1

theorem Team.other_other (t : Team) : t.other.other = t := by
  cases t <;> rfl

theorem calc_pct_eq (a b : Nat) (hb : b ≠ 0) :
    calculate_percentage (a : ℚ) (b : ℚ) = 100 * (a : ℚ) / (b : ℚ) := by
  unfold calculate_percentage
  rw [if_pos (by exact_mod_cast hb)]
  ring

theorem calc_pct_zero (a : ℚ) : calculate_percentage a 0 = 0 := by
  unfold calculate_percentage
  simp

/-- Claim C2, counterexample: a `fouls` amendment accepted while team 1
is mid-visit flips the active side to team 2, sets the two-shot
allowance (`shots_left = 2`) and resets the shots taken this visit —
the `"foul" in action` test of main.py:463 also matches the amendment
kind, so the turn fields are not left unchanged. -/
theorem claim2_counterexample :
    (recordAction exBreak .team1 .fouls 5).2 = none ∧
    exBreak.active_team = some Team.team1 ∧
    exBreak.shots_left = 1 ∧ exBreak.shots_taken_current_visit = 1 ∧
    (recordAction exBreak .team1 .fouls 5).1.active_team = some Team.team2 ∧
    (recordAction exBreak .team1 .fouls 5).1.shots_left = 2 ∧
    (recordAction exBreak .team1 .fouls 5).1.shots_taken_current_visit = 0 := by
  decide

/-- Claim C2 (amended): an `additional_potted` amendment is always
accepted and (whenever `shots_left` is non-zero, which holds in every
reachable state) leaves the active side, standby side, `shots_left` and
`shots_taken_current_visit` unchanged; a `fouls` amendment is always
accepted but runs the foul turnover: the opponent of the acting side
becomes active with a two-shot allowance and a fresh visit count. -/
theorem claim2_amended (s : AppState) (t : Team) (now : Nat) (h : s.shots_left ≠ 0) :
    ((recordAction s t .additional_potted now).2 = none ∧
     (recordAction s t .additional_potted now).1.active_team = s.active_team ∧
     (recordAction s t .additional_potted now).1.standby_team = s.standby_team ∧
     (recordAction s t .additional_potted now).1.shots_left = s.shots_left ∧
     (recordAction s t .additional_potted now).1.shots_taken_current_visit =
       s.shots_taken_current_visit) ∧
    ((recordAction s t .fouls now).2 = none ∧
     (recordAction s t .fouls now).1.active_team = some t.other ∧
     (recordAction s t .fouls now).1.standby_team = some t ∧
     (recordAction s t .fouls now).1.shots_left = 2 ∧
     (recordAction s t .fouls now).1.shots_taken_current_visit = 0) := by
  constructor
  · refine ⟨?_, ?_, ?_, ?_, ?_⟩ <;>
      simp [recordAction, breakBlock, applyEffects, storeSnapshots, addAction,
        updateTotal, setActiveTeam, isAmendment, isBreakAction, isPotAction,
        isFoulAction, ite_active_team, ite_standby_team, ite_shots_left,
        ite_shots_taken, h]
  · refine ⟨?_, ?_, ?_, ?_, ?_⟩ <;>
      simp [recordAction, breakBlock, applyEffects, storeSnapshots, addAction,
        updateTotal, setActiveTeam, isAmendment, isBreakAction, isPotAction,
        isFoulAction, ite_active_team, ite_standby_team, ite_shots_left,
        ite_shots_taken, Team.other_other]

theorem claim2_amended_witness :
    exInit.shots_left ≠ 0 ∧
    (recordAction exInit .team1 .additional_potted 0).1.active_team =
      exInit.active_team ∧
    (recordAction exInit .team1 .fouls 0).1.active_team = some Team.team2 := by
  have h := claim2_amended exInit .team1 0 (by decide)
  exact ⟨by decide, h.1.2.1, h.2.2.1⟩

/-- Claim C3, counterexample: a reachable, all-accepted five-action run
(break pot, miss, opponent pot, foul amendment, opponent pot) in which
the non-break side holds 2 visits against the break side's 1 — the
second half of the claimed invariant fails, because the visit-balance
checks allow a side whose visit count equals the break side's to take
another visit after a foul amendment hands it the table. -/
theorem claim3_counterexample :
    Reachable 5 exViolate ∧
    (recordAction exInit .team1 .break_potted 1).2 = none ∧
    (recordAction exBreak .team1 .easy_shots 2).2 = none ∧
    (recordAction exMiss .team2 .easy_potted 3).2 = none ∧
    (recordAction exVisit2 .team1 .fouls 4).2 = none ∧
    (recordAction exFoulAmend .team2 .easy_potted 5).2 = none ∧
    exViolate.break_team = some Team.team1 ∧
    (exViolate.team_stats.get Team.team2).visits = 2 ∧
    (exViolate.team_stats.get Team.team1).visits = 1 := by
  refine ⟨?_, by decide, by decide, by decide, by decide, by decide, by decide,
    by decide, by decide⟩
  exact Reachable.step (Reachable.step (Reachable.step (Reachable.step
    (Reachable.step Reachable.init (Step.record exInit .team1 .break_potted 1))
    (Step.record exBreak .team1 .easy_shots 2))
    (Step.record exMiss .team2 .easy_potted 3))
    (Step.record exVisit2 .team1 .fouls 4))
    (Step.record exFoulAmend .team2 .easy_potted 5)

/-- Claim C3 (amended): in every reachable state the two sides' visit
counts differ by at most one; consequently, once a break side exists,
the non-break side can exceed the break side's visits by at most one
(rather than never, as claimed). -/
theorem claim3_amended {n : Nat} {s : AppState} (h : Reachable n s) :
    |((s.team_stats.get .team1).visits : ℤ) -
      ((s.team_stats.get .team2).visits : ℤ)| ≤ 1 ∧
    ∀ bt : Team, s.break_team = some bt →
      (s.team_stats.get bt.other).visits ≤ (s.team_stats.get bt).visits + 1 := by
  have hg := (reachable_goodS h).1
  unfold GoodStats at hg
  obtain ⟨hg1, hg2, -, -⟩ := hg
  constructor
  · rw [abs_sub_le_iff]
    constructor <;> (simp only [OverallStats.get]; omega)
  · intro bt _
    cases bt <;> simp only [OverallStats.get, Team.other] <;> omega

theorem claim3_amended_witness :
    Reachable 5 (initState 5) ∧
    (|(((initState 5).team_stats.get .team1).visits : ℤ) -
       (((initState 5).team_stats.get .team2).visits : ℤ)| ≤ 1 ∧
     ∀ bt : Team, (initState 5).break_team = some bt →
       ((initState 5).team_stats.get bt.other).visits ≤
         ((initState 5).team_stats.get bt).visits + 1) :=
  ⟨Reachable.init, claim3_amended Reachable.init⟩

/-- Claim C4, counterexample: a rejection that mutates state.  After a
break and a confirmed reset, the stale break team makes a post-reset
shot acceptable; a new break attempt then runs the break-assignment
block (setting `start_time`, active side, and resetting the shot
counters) before the visit-balance check raises `IncorrectVisits`, so
the rejected action leaves mutated turn state behind. -/
theorem claim4_counterexample :
    Reachable 5 exPostReset ∧
    (recordAction exReset .team1 .easy_potted 7).2 = none ∧
    (recordAction exPostReset .team1 .break_potted 8).2 =
      some RecError.incorrectVisits ∧
    exPostReset.active_team = none ∧
    (recordAction exPostReset .team1 .break_potted 8).1.active_team =
      some Team.team1 ∧
    exPostReset.start_time = none ∧
    (recordAction exPostReset .team1 .break_potted 8).1.start_time = some 8 ∧
    exPostReset.shots_taken_current_visit = 1 ∧
    (recordAction exPostReset .team1 .break_potted 8).1.shots_taken_current_visit
      = 0 := by
  refine ⟨?_, by decide, by decide, by decide, by decide, by decide, by decide,
    by decide, by decide⟩
  exact Reachable.step (Reachable.step
    (Reachable.step Reachable.init (Step.record exInit .team1 .break_potted 1))
    (Step.resetStep exBreak))
    (Step.record exReset .team1 .easy_potted 7)

/-- Claim C4 (amended): a `WrongTeamShot` rejection — raised when a side
acts out of turn on a non-amendment kind — really is fully local: it
fires before any mutation, so the returned state is exactly the input
state.  (The universal claim over every rejection fails: see the
counterexample, where `IncorrectVisits` fires after the break block.) -/
theorem claim4_amended (s : AppState) (t : Team) (a : ActionKind) (now : Nat)
    (h : (recordAction s t a now).2 = some RecError.wrongTeamShot) :
    (recordAction s t a now).1 = s := by
  rcases recordAction_shape s t a now with ⟨e, hs, he⟩ | ⟨e, hs, he⟩ | ⟨inc, hs, hv⟩
  · rw [hs]
  · rw [hs] at h
    simp at h
    rcases he with rfl | rfl <;> simp at h
  · rw [hs] at h
    simp at h

theorem claim4_amended_witness :
    (recordAction exBreak .team2 .easy_potted 9).2 = some RecError.wrongTeamShot ∧
    (recordAction exBreak .team2 .easy_potted 9).1 = exBreak :=
  ⟨by decide, claim4_amended exBreak .team2 .easy_potted 9 (by decide)⟩

/-- Claim C6: in every state reachable with a configured capacity
`n ≥ 1`, the five parallel undo stacks have exactly equal depth, and the
depth never exceeds `n`; a push at capacity first evicts the oldest
entry of each stack (`store_snapshots`, main.py:175-183). -/
theorem claim6_histories {n : Nat} {s : AppState} (h : Reachable n s) (hn : 1 ≤ n) :
    s.action_log_history.length = s.stats_history.length ∧
    s.active_team_history.length = s.stats_history.length ∧
    s.shots_left_history.length = s.stats_history.length ∧
    s.shots_taken_current_visit_history.length = s.stats_history.length ∧
    s.stats_history.length ≤ n ∧
    s.undo_snapshot_size = n := by
  obtain ⟨ha, ⟨h1, h2, h3, h4⟩, hb⟩ := reachable_histInv h
  exact ⟨h1, h2, h3, h4, hb hn, ha⟩

theorem claim6_histories_witness :
    (1 : Nat) ≤ 5 ∧
    (initState 5).action_log_history.length = (initState 5).stats_history.length ∧
    (initState 5).stats_history.length ≤ 5 :=
  ⟨by decide, (claim6_histories Reachable.init (by decide)).1,
    (claim6_histories Reachable.init (by decide)).2.2.2.2.1⟩

/-- Claim C9: in every reachable state, for each side and each shot
family (easy, difficult, safety, break), the potted counter is at most
the attempted counter, because each accepted pot increments the
attempted counter (main.py:452) together with the potted counter
(main.py:473). -/
theorem claim9_pot_le {n : Nat} {s : AppState} (h : Reachable n s) (t : Team) :
    (s.team_stats.get t).easy_potted ≤ (s.team_stats.get t).easy_shots ∧
    (s.team_stats.get t).difficult_potted ≤ (s.team_stats.get t).difficult_shots ∧
    (s.team_stats.get t).safety_potted ≤ (s.team_stats.get t).safety_shots ∧
    (s.team_stats.get t).break_potted ≤ (s.team_stats.get t).break_shots := by
  have hg := (reachable_goodS h).1
  unfold GoodStats PotLe at hg
  cases t <;> simp only [OverallStats.get] <;> tauto

theorem claim9_pot_le_witness :
    Reachable 5 exViolate ∧
    ((exViolate.team_stats.get Team.team1).easy_potted ≤
      (exViolate.team_stats.get Team.team1).easy_shots ∧
     (exViolate.team_stats.get Team.team1).difficult_potted ≤
      (exViolate.team_stats.get Team.team1).difficult_shots ∧
     (exViolate.team_stats.get Team.team1).safety_potted ≤
      (exViolate.team_stats.get Team.team1).safety_shots ∧
     (exViolate.team_stats.get Team.team1).break_potted ≤
      (exViolate.team_stats.get Team.team1).break_shots) := by
  have hre : Reachable 5 exViolate :=
    Reachable.step (Reachable.step (Reachable.step (Reachable.step
      (Reachable.step Reachable.init (Step.record exInit .team1 .break_potted 1))
      (Step.record exBreak .team1 .easy_shots 2))
      (Step.record exMiss .team2 .easy_potted 3))
      (Step.record exVisit2 .team1 .fouls 4))
      (Step.record exFoulAmend .team2 .easy_potted 5)
  exact ⟨hre, claim9_pot_le hre Team.team1⟩

/-- Claim C7: the derived metrics of `generate_stats_text` satisfy the
stated equations — the shot/pot totals, each percentage equal to
`100 * numerator / denominator` with value 0 on a zero denominator, and
`potPerVisit = totalPottedAll / max(visits, 1)`; on the all-zero
`TeamStats` every metric is 0 and no division fault occurs. -/
theorem claim7_metrics (stats : TeamStats) :
    (deriveMetrics stats).total_shots =
      stats.easy_shots + stats.difficult_shots + stats.safety_shots +
        stats.break_shots + stats.foul_only_shots ∧
    (deriveMetrics stats).total_potted =
      stats.easy_potted + stats.difficult_potted ∧
    (deriveMetrics stats).total_pots_with_additional =
      (deriveMetrics stats).total_potted + stats.break_potted +
        stats.safety_potted + stats.additional_potted ∧
    (stats.easy_shots + stats.difficult_shots ≠ 0 →
      (deriveMetrics stats).pot_percent =
        100 * ((stats.easy_potted + stats.difficult_potted : Nat) : ℚ) /
          ((stats.easy_shots + stats.difficult_shots : Nat) : ℚ)) ∧
    (stats.easy_shots + stats.difficult_shots = 0 →
      (deriveMetrics stats).pot_percent = 0) ∧
    ((deriveMetrics stats).total_shots ≠ 0 →
      (deriveMetrics stats).shot_percent =
        100 * (((deriveMetrics stats).total_pots_with_additional : Nat) : ℚ) /
          (((deriveMetrics stats).total_shots : Nat) : ℚ)) ∧
    ((deriveMetrics stats).total_shots = 0 →
      (deriveMetrics stats).shot_percent = 0) ∧
    (stats.easy_shots ≠ 0 →
      (deriveMetrics stats).easy_shot_percent =
        100 * ((stats.easy_potted : Nat) : ℚ) / ((stats.easy_shots : Nat) : ℚ)) ∧
    (stats.easy_shots = 0 → (deriveMetrics stats).easy_shot_percent = 0) ∧
    (stats.difficult_shots ≠ 0 →
      (deriveMetrics stats).difficult_shot_percent =
        100 * ((stats.difficult_potted : Nat) : ℚ) /
          ((stats.difficult_shots : Nat) : ℚ)) ∧
    (stats.difficult_shots = 0 → (deriveMetrics stats).difficult_shot_percent = 0) ∧
    (deriveMetrics stats).pot_per_visit =
      (((deriveMetrics stats).total_pots_with_additional : Nat) : ℚ) /
        ((max stats.visits 1 : Nat) : ℚ) ∧
    ((deriveMetrics startingTeamStats).pot_percent = 0 ∧
     (deriveMetrics startingTeamStats).shot_percent = 0 ∧
     (deriveMetrics startingTeamStats).easy_shot_percent = 0 ∧
     (deriveMetrics startingTeamStats).difficult_shot_percent = 0 ∧
     (deriveMetrics startingTeamStats).pot_per_visit = 0) := by
  refine ⟨rfl, rfl, rfl, ?_, ?_, ?_, ?_, ?_, ?_, ?_, ?_, ?_,
    by norm_num [deriveMetrics, calculate_percentage, startingTeamStats]⟩
  · intro h
    exact calc_pct_eq (stats.easy_potted + stats.difficult_potted)
      (stats.easy_shots + stats.difficult_shots) h
  · intro h
    have h2 : ((stats.easy_shots + stats.difficult_shots : Nat) : ℚ) = 0 := by
      exact_mod_cast h
    show calculate_percentage ((stats.easy_potted + stats.difficult_potted : Nat) : ℚ)
      ((stats.easy_shots + stats.difficult_shots : Nat) : ℚ) = 0
    rw [h2]
    exact calc_pct_zero _
  · intro h
    exact calc_pct_eq _ _ h
  · intro h
    have h2 : (((deriveMetrics stats).total_shots : Nat) : ℚ) = 0 := by
      exact_mod_cast h
    show calculate_percentage
      (((deriveMetrics stats).total_pots_with_additional : Nat) : ℚ)
      (((deriveMetrics stats).total_shots : Nat) : ℚ) = 0
    rw [h2]
    exact calc_pct_zero _
  · intro h
    exact calc_pct_eq stats.easy_potted stats.easy_shots h
  · intro h
    have h2 : ((stats.easy_shots : Nat) : ℚ) = 0 := by exact_mod_cast h
    show calculate_percentage ((stats.easy_potted : Nat) : ℚ)
      ((stats.easy_shots : Nat) : ℚ) = 0
    rw [h2]
    exact calc_pct_zero _
  · intro h
    exact calc_pct_eq stats.difficult_potted stats.difficult_shots h
  · intro h
    have h2 : ((stats.difficult_shots : Nat) : ℚ) = 0 := by exact_mod_cast h
    show calculate_percentage ((stats.difficult_potted : Nat) : ℚ)
      ((stats.difficult_shots : Nat) : ℚ) = 0
    rw [h2]
    exact calc_pct_zero _
  · have hmax : (if stats.visits = 0 then 1 else stats.visits) = max stats.visits 1 := by
      split
      · rename_i h0
        rw [h0]
        simp
      · rename_i h0
        exact (max_eq_left (Nat.one_le_iff_ne_zero.mpr h0)).symm
    show (((deriveMetrics stats).total_pots_with_additional : Nat) : ℚ) /
        (((if stats.visits = 0 then 1 else stats.visits) : Nat) : ℚ) = _
    rw [hmax]

theorem claim7_metrics_witness :
    ((1 : Nat) + 1 ≠ 0) ∧
    (deriveMetrics { startingTeamStats with
        easy_shots := 1, difficult_shots := 1, easy_potted := 1 }).pot_percent =
      100 * ((1 : Nat) : ℚ) / (((1 : Nat) + 1 : Nat) : ℚ) ∧
    (deriveMetrics startingTeamStats).pot_percent = 0 := by
  have h := claim7_metrics { startingTeamStats with
    easy_shots := 1, difficult_shots := 1, easy_potted := 1 }
  exact ⟨by decide, h.2.2.2.1 (by decide), (claim7_metrics startingTeamStats).2.2.2.2.1 rfl⟩

/-- Claim C1, counterexample: the first break shot is an accepted
mutation, but `set_active_team` and the break-team assignment run before
`store_snapshots`, so the paired undo leaves the active side at the
post-break value instead of the pre-mutation `None`, and the break side
is not restored either. -/
theorem claim1_counterexample :
    (recordAction exInit .team1 .break_potted 1).2 = none ∧
    exInit.active_team = none ∧ exInit.break_team = none ∧
    (undo exBreak).active_team = some Team.team1 ∧
    (undo exBreak).break_team = some Team.team1 := by decide

/-- Claim C1 (amended): for every accepted mutation that is not a
first-break action, the snapshot is captured before any effect, so undo
restores the stats store and the turn fields (active side, standby side,
shots left, shots taken this visit) to their exact pre-mutation values;
the break side is not part of the snapshot but is written by neither the
mutation nor the undo.  The standby/total consistency hypotheses hold in
every reachable state. -/
theorem claim1_amended (s : AppState) (t : Team) (a : ActionKind) (now : Nat)
    (hacc : (recordAction s t a now).2 = none)
    (hnb : ¬ (isBreakAction a ∧ s.start_time = none))
    (hsb : s.standby_team = s.active_team.map Team.other)
    (htot : s.team_stats.total = addStats s.team_stats.team1 s.team_stats.team2) :
    (undo (recordAction s t a now).1).team_stats = s.team_stats ∧
    (undo (recordAction s t a now).1).active_team = s.active_team ∧
    (undo (recordAction s t a now).1).standby_team = s.standby_team ∧
    (undo (recordAction s t a now).1).shots_left = s.shots_left ∧
    (undo (recordAction s t a now).1).shots_taken_current_visit =
      s.shots_taken_current_visit ∧
    (undo (recordAction s t a now).1).break_team = s.break_team := by
  obtain ⟨inc, heq⟩ := recordAction_of_accepted s t a now hacc
  rw [heq, breakBlock_eq_self s t a now hnb]
  have h := undo_applyEffects s t a now
    (teamName t ++ " " ++ actionDisplayName a) (actionDisplayName a) inc hsb htot
  exact ⟨h.1, h.2.1, h.2.2.1, h.2.2.2.1, h.2.2.2.2.1, h.2.2.2.2.2.1⟩

theorem claim1_amended_witness :
    (recordAction exBreak .team1 .easy_potted 2).2 = none ∧
    ¬ (isBreakAction ActionKind.easy_potted ∧ exBreak.start_time = none) ∧
    (undo (recordAction exBreak .team1 .easy_potted 2).1).team_stats =
      exBreak.team_stats ∧
    (undo (recordAction exBreak .team1 .easy_potted 2).1).active_team =
      exBreak.active_team := by
  have h := claim1_amended exBreak .team1 .easy_potted 2
    (by decide) (by decide) (by decide) (by decide)
  exact ⟨by decide, by decide, h.1, h.2.1⟩

/-- Claim C5, counterexample: reset does not clear the break side — after
a break by team 1 and a confirmed reset, `break_team` is still team 1,
not `None`. -/
theorem claim5_counterexample :
    exBreak.break_team = some Team.team1 ∧
    (reset exBreak).break_team = some Team.team1 ∧
    ¬ (reset exBreak).break_team = none := by decide

/-- Claim C5 (amended): a confirmed reset drops the active and standby
sides, reinitializes `shots_left` to 1 and `shots_taken_current_visit`
to 0, zeroes both sides' counters (and the derived total), clears the
times and the log — but the break side keeps its prior value instead of
being cleared. -/
theorem claim5_amended (s : AppState) :
    (reset s).active_team = none ∧ (reset s).standby_team = none ∧
    (reset s).shots_left = 1 ∧ (reset s).shots_taken_current_visit = 0 ∧
    (reset s).team_stats.team1 = startingTeamStats ∧
    (reset s).team_stats.team2 = startingTeamStats ∧
    (reset s).team_stats.total = startingTeamStats ∧
    (reset s).start_time = none ∧ (reset s).end_time = none ∧
    (reset s).action_log = [] ∧
    (reset s).break_team = s.break_team :=
  ⟨rfl, rfl, rfl, rfl, rfl, rfl, rfl, rfl, rfl, rfl, rfl⟩

/-- Claim C8: from the initial state (no break side established,
`shots_taken_current_visit = 0`), a non-amendment, non-break action
reaches the second visit-balance check, which indexes the stats dict
with `None` and raises a `KeyError` rather than one of the declared
validation errors. -/
theorem claim8_keyerror :
    (recordAction exInit .team1 .easy_potted 0).2 =
      some RecError.keyErrorBreakTeamNone ∧
    exInit.break_team = none ∧ exInit.shots_taken_current_visit = 0 ∧
    ¬ isAmendment ActionKind.easy_potted ∧
    ¬ isBreakAction ActionKind.easy_potted := by decide

/-- Claim C10: undo leaves `start_time`, `end_time` (and the break team)
untouched for every state; in particular undoing a reset does not
restore the start time the reset cleared. -/
theorem claim10_undo_times (s : AppState) :
    (undo s).start_time = s.start_time ∧ (undo s).end_time = s.end_time ∧
    (undo s).break_team = s.break_team ∧
    (undo (reset s)).start_time = none := by
  obtain ⟨h1, h2, h3, h4⟩ := undo_frame s
  obtain ⟨g1, g2, g3, g4⟩ := undo_frame (reset s)
  exact ⟨h1, h2, h3, g1⟩
